import Mathlib

/-!
Shallow embedding of the PDFTHING interactive document-composition engine
(the `PDFEditor` component and the `pdfProcessor` utility), together with
proofs settling the specification claims about it.

The editor keeps its whole state in a handful of React `useState` cells:
`pages`, `currentPageIndex`, `selectedElement`, `history`, `historyIndex`.
We bundle those cells into one `EditorState` record and translate each
handler (`addToHistory`, `undo`, `redo`, `addTextElement`,
`addShapeElement`, `updateElement`, `deleteElement`, `duplicateElement`,
`handleCanvasClick`, `addPage`, `deletePage`, `loadPDF`, `savePDF`) into a
pure state-transformation function.  JavaScript numbers are modelled as
rationals (all the arithmetic the editor performs on them is exact:
additions, subtractions, divisions by the zoom factor and comparisons);
`zIndex` is kept as an integer, matching the spec's data model.
-/

namespace PDFThing

/-- Horizontal alignment of a text element (source union
`'left' | 'center' | 'right' | 'justify'`). -/
inductive Alignment
  | left
  | center
  | right
  | justify
deriving DecidableEq

/-- The three shape variants of `ShapeElement.type`. -/
inductive ShapeKind
  | rectangle
  | circle
  | line
deriving DecidableEq

/-- Variant-specific attributes of an element: the source is a tagged union
`TextElement | ImageElement | ShapeElement` discriminated on `type`. -/
inductive ElemVariant
  | text (content : String) (fontSize : ℚ) (fontFamily : String) (color : String)
      (bold italic underline strikethrough : Bool) (alignment : Alignment)
  | image (src : String)
  | shape (kind : ShapeKind) (fillColor strokeColor : String) (strokeWidth : ℚ)
deriving DecidableEq

/-- Attributes common to every element variant in the source interfaces. -/
@[ext] structure Element where
  id : String
  x : ℚ
  y : ℚ
  width : ℚ
  height : ℚ
  rotation : ℚ
  locked : Bool
  visible : Bool
  zIndex : ℤ
  variant : ElemVariant
deriving DecidableEq

/-- The source `PDFPage` interface. -/
@[ext] structure PDFPage where
  id : String
  pageNumber : ℕ
  width : ℚ
  height : ℚ
  elements : List Element
  backgroundImage : Option String
deriving DecidableEq

/-- The `useState` cells of the `PDFEditor` component that the modelled
handlers read or write. -/
@[ext] structure EditorState where
  pages : List PDFPage
  currentPageIndex : ℕ
  selectedElement : Option String
  history : List (List PDFPage)
  historyIndex : ℤ
deriving DecidableEq

/-! ## History manager -/

/-- `addToHistory(newPages)`: `history.slice(0, historyIndex + 1)`, push a
deep copy of `newPages`, cursor to the new last index.  (Deep copies are
value copies in the embedding.) -/
def addToHistory (s : EditorState) (newPages : List PDFPage) : EditorState :=
  let newHistory := s.history.take (s.historyIndex + 1).toNat ++ [newPages]
  { s with history := newHistory, historyIndex := (newHistory.length : ℤ) - 1 }

/-- The `setPages(updatedPages); addToHistory(updatedPages)` pattern every
committing handler uses. -/
def commitPages (s : EditorState) (newPages : List PDFPage) : EditorState :=
  addToHistory { s with pages := newPages } newPages

/-- `undo()`: when `historyIndex > 0`, step the cursor back and restore a
deep copy of the snapshot now under it. -/
def undo (s : EditorState) : EditorState :=
  if 0 < s.historyIndex then
    { s with historyIndex := s.historyIndex - 1,
             pages := s.history.getD (s.historyIndex - 1).toNat [] }
  else s

/-- `redo()`: when `historyIndex < history.length - 1`, step the cursor
forward and restore a deep copy of the snapshot now under it. -/
def redo (s : EditorState) : EditorState :=
  if s.historyIndex < (s.history.length : ℤ) - 1 then
    { s with historyIndex := s.historyIndex + 1,
             pages := s.history.getD (s.historyIndex + 1).toNat [] }
  else s

@[simp] theorem commitPages_pages (s : EditorState) (d : List PDFPage) :
    (commitPages s d).pages = d := rfl

@[simp] theorem commitPages_history (s : EditorState) (d : List PDFPage) :
    (commitPages s d).history = s.history.take (s.historyIndex + 1).toNat ++ [d] := rfl

@[simp] theorem commitPages_historyIndex (s : EditorState) (d : List PDFPage) :
    (commitPages s d).historyIndex =
      ((s.history.take (s.historyIndex + 1).toNat ++ [d]).length : ℤ) - 1 := rfl

@[simp] theorem commitPages_selectedElement (s : EditorState) (d : List PDFPage) :
    (commitPages s d).selectedElement = s.selectedElement := rfl

@[simp] theorem commitPages_currentPageIndex (s : EditorState) (d : List PDFPage) :
    (commitPages s d).currentPageIndex = s.currentPageIndex := rfl

/-- C1: `undo()` immediately after a commit restores the document recorded
before that commit (the snapshot under the old cursor, which equals the
live document whenever the live document is in sync with the history, as it
is along the recorded path), `redo()` immediately after that `undo()`
restores the full post-commit state, and undoing again after that redo
returns to the undone state: along the recorded path undo and redo are
mutual inverses. -/
theorem undo_redo_roundtrip (s : EditorState) (d : List PDFPage)
    (h0 : 0 ≤ s.historyIndex)
    (h1 : s.historyIndex < (s.history.length : ℤ))
    (hsync : s.pages = s.history.getD s.historyIndex.toNat []) :
    (undo (commitPages s d)).pages = s.pages ∧
    redo (undo (commitPages s d)) = commitPages s d ∧
    undo (redo (undo (commitPages s d))) = undo (commitPages s d) := by
  obtain ⟨n, hn⟩ := Int.eq_ofNat_of_zero_le h0
  have hnl : n < s.history.length := by exact_mod_cast hn ▸ h1
  have htoNat : (s.historyIndex + 1).toNat = n + 1 := by omega
  have htake : (s.history.take (n + 1)).length = n + 1 := by
    rw [List.length_take]; omega
  have hNHlen : (s.history.take (n + 1) ++ [d]).length = n + 2 := by
    simp [htake]
  have hcommit : commitPages s d =
      { s with pages := d,
               history := s.history.take (n + 1) ++ [d],
               historyIndex := ((s.history.take (n + 1) ++ [d]).length : ℤ) - 1 } := by
    simp [commitPages, addToHistory, htoNat]
  have hidx : ((s.history.take (n + 1) ++ [d]).length : ℤ) - 1 = (n : ℤ) + 1 := by
    rw [hNHlen]; push_cast; ring
  have hgetn : (s.history.take (n + 1) ++ [d]).getD n [] = s.pages := by
    rw [List.getD_append _ _ _ _ (by omega)]
    rw [hsync, hn]
    simp only [Int.toNat_ofNat]
    rw [List.getD_eq_getElem _ _ (by omega), List.getD_eq_getElem _ _ hnl]
    exact List.getElem_take _
  have hundo : undo (commitPages s d) =
      { s with pages := s.pages,
               history := s.history.take (n + 1) ++ [d],
               historyIndex := (n : ℤ) } := by
    rw [hcommit, undo]
    rw [if_pos (show (0:ℤ) < (s.history.take (n + 1) ++ [d]).length - 1 by
      rw [hNHlen]; push_cast; omega)]
    simp only [hidx]
    have h11 : (n : ℤ) + 1 - 1 = (n : ℤ) := by ring
    rw [h11]
    simp only [Int.toNat_ofNat, hgetn]
  have hgetn1 : (s.history.take (n + 1) ++ [d]).getD ((n : ℤ) + 1).toNat [] = d := by
    have : ((n : ℤ) + 1).toNat = n + 1 := by omega
    rw [this, List.getD_append_right _ _ _ _ (by omega), htake]
    simp
  have hredo : redo (undo (commitPages s d)) = commitPages s d := by
    rw [hundo, redo]
    rw [if_pos (show (n:ℤ) < ((s.history.take (n + 1) ++ [d]).length : ℤ) - 1 by
      rw [hNHlen]; push_cast; omega)]
    rw [hcommit, hidx]
    simp only [hgetn1]
  exact ⟨by rw [hundo], hredo, congrArg undo hredo⟩

/-- C1 witness: a concrete one-commit history where the roundtrip theorem
applies. -/
theorem undo_redo_roundtrip_witness :
    (undo (commitPages
        { pages := [], currentPageIndex := 0, selectedElement := none,
          history := [[]], historyIndex := 0 }
        [{ id := "page-1", pageNumber := 1, width := 200, height := 200,
           elements := [], backgroundImage := none }])).pages = [] ∧
    redo (undo (commitPages
        { pages := [], currentPageIndex := 0, selectedElement := none,
          history := [[]], historyIndex := 0 }
        [{ id := "page-1", pageNumber := 1, width := 200, height := 200,
           elements := [], backgroundImage := none }])) =
      commitPages
        { pages := [], currentPageIndex := 0, selectedElement := none,
          history := [[]], historyIndex := 0 }
        [{ id := "page-1", pageNumber := 1, width := 200, height := 200,
           elements := [], backgroundImage := none }] := by
  have h := undo_redo_roundtrip
    { pages := [], currentPageIndex := 0, selectedElement := none,
      history := [[]], historyIndex := 0 }
    [{ id := "page-1", pageNumber := 1, width := 200, height := 200,
       elements := [], backgroundImage := none }]
    (by decide) (by decide) (by decide)
  exact ⟨h.1, h.2.1⟩

/-- C2: committing while the cursor is anywhere in the stack keeps exactly
the entries at indices `[0, cursor]`, appends the new snapshot as the new
last entry, moves the cursor to the new last index, and leaves `redo` a
no-op (redo is unavailable). -/
theorem commit_truncates (s : EditorState) (d : List PDFPage)
    (h0 : 0 ≤ s.historyIndex)
    (h1 : s.historyIndex < (s.history.length : ℤ)) :
    (commitPages s d).history =
      s.history.take (s.historyIndex + 1).toNat ++ [d] ∧
    (commitPages s d).history.length = s.historyIndex.toNat + 2 ∧
    (∀ j : ℕ, j ≤ s.historyIndex.toNat →
      (commitPages s d).history.getD j [] = s.history.getD j []) ∧
    (commitPages s d).history.getD (s.historyIndex.toNat + 1) [] = d ∧
    (commitPages s d).historyIndex = ((commitPages s d).history.length : ℤ) - 1 ∧
    redo (commitPages s d) = commitPages s d := by
  obtain ⟨n, hn⟩ := Int.eq_ofNat_of_zero_le h0
  have hnl : n < s.history.length := by exact_mod_cast hn ▸ h1
  have htoNat : (s.historyIndex + 1).toNat = n + 1 := by omega
  have hidxn : s.historyIndex.toNat = n := by omega
  have htake : (s.history.take (n + 1)).length = n + 1 := by
    rw [List.length_take]; omega
  have hNHlen : (s.history.take (n + 1) ++ [d]).length = n + 2 := by
    simp [htake]
  refine ⟨rfl, ?_, ?_, ?_, rfl, ?_⟩
  · rw [commitPages_history, htoNat, hNHlen, hidxn]
  · intro j hj
    rw [commitPages_history, htoNat, hidxn] at *
    rw [List.getD_append _ _ _ _ (by omega)]
    rw [List.getD_eq_getElem _ _ (by omega), List.getD_eq_getElem _ _ (by omega)]
    exact List.getElem_take _
  · rw [commitPages_history, htoNat, hidxn,
      List.getD_append_right _ _ _ _ (by omega), htake]
    simp
  · rw [redo]
    rw [if_neg (by simp)]

/-- C2 witness: a concrete commit with the cursor strictly before the tail:
the entry after the cursor is discarded. -/
theorem commit_truncates_witness :
    (commitPages
        { pages := [], currentPageIndex := 0, selectedElement := none,
          history := [[], [], []], historyIndex := 0 }
        []).history.length = 2 ∧
    redo (commitPages
        { pages := [], currentPageIndex := 0, selectedElement := none,
          history := [[], [], []], historyIndex := 0 }
        []) =
      commitPages
        { pages := [], currentPageIndex := 0, selectedElement := none,
          history := [[], [], []], historyIndex := 0 }
        [] := by
  have h := commit_truncates
    { pages := [], currentPageIndex := 0, selectedElement := none,
      history := [[], [], []], historyIndex := 0 }
    [] (by decide) (by decide)
  exact ⟨h.2.1, h.2.2.2.2.2⟩

/-! ## Element management

`generateId()` produces a fresh id from the clock and a random suffix; the
embedding takes the generated id as an explicit argument. -/

/-- The in-place update `updatedPages[currentPageIndex] = ...` /
`updatedPages[currentPageIndex].elements.push(...)` pattern: apply `f` to
the entry at index `i`. -/
def modifyPage (pages : List PDFPage) (i : ℕ) (f : PDFPage → PDFPage) : List PDFPage :=
  match pages, i with
  | [], _ => []
  | p :: ps, 0 => f p :: ps
  | p :: ps, i + 1 => p :: modifyPage ps i f

/-- `elements[elementIndex] = { ...elements[elementIndex], ...updates }`:
replace the first element with the given id by its updated copy.  The
partial-attribute merge is modelled by the update function `f`. -/
def replaceFirst (es : List Element) (elementId : String) (f : Element → Element) :
    List Element :=
  match es with
  | [] => []
  | e :: rest =>
      if e.id = elementId then f e :: rest else e :: replaceFirst rest elementId f

/-- `pages[currentPageIndex]?.elements.length || 0`. -/
def currentElementCount (s : EditorState) : ℕ :=
  ((s.pages[s.currentPageIndex]?).map (fun p => p.elements.length)).getD 0

/-- The literal new element of `addTextElement`. -/
def newTextElement (newId : String) (x y : ℚ) (count : ℕ) : Element :=
  { id := newId, x := x, y := y, width := 200, height := 30,
    rotation := 0, locked := false, visible := true, zIndex := (count : ℤ),
    variant := .text "New Text" 16 "Arial" "#000000" false false false false .left }

/-- The literal new element of `addShapeElement`. -/
def newShapeElement (kind : ShapeKind) (newId : String) (x y : ℚ) (count : ℕ) : Element :=
  { id := newId, x := x, y := y,
    width := 100,
    height := if kind = .line then 2 else 100,
    rotation := 0, locked := false, visible := true, zIndex := (count : ℤ),
    variant := .shape kind (if kind = .line then "transparent" else "#ffffff")
      "#000000" 2 }

/-- `addTextElement(x, y)`: push the default text element onto the current
page, commit, select it. -/
def addTextElement (s : EditorState) (newId : String) (x y : ℚ) : EditorState :=
  let newElement := newTextElement newId x y (currentElementCount s)
  { commitPages s (modifyPage s.pages s.currentPageIndex
      (fun p => { p with elements := p.elements ++ [newElement] })) with
    selectedElement := some newId }

/-- `addShapeElement(type, x, y)`: push the default shape element onto the
current page, commit, select it. -/
def addShapeElement (s : EditorState) (kind : ShapeKind) (newId : String) (x y : ℚ) :
    EditorState :=
  let newElement := newShapeElement kind newId x y (currentElementCount s)
  { commitPages s (modifyPage s.pages s.currentPageIndex
      (fun p => { p with elements := p.elements ++ [newElement] })) with
    selectedElement := some newId }

/-- `updateElement(elementId, updates)`: merge the updates into the first
element with that id on the current page; unknown id is a no-op.  The
source calls `setPages` only — it does **not** call `addToHistory`. -/
def updateElement (s : EditorState) (elementId : String) (f : Element → Element) :
    EditorState :=
  match s.pages[s.currentPageIndex]? with
  | none => s
  | some p =>
      if p.elements.any (fun e => e.id = elementId) then
        { s with pages := (modifyPage s.pages s.currentPageIndex
            (fun q => { q with elements := replaceFirst q.elements elementId f })) }
      else s

/-- `deleteElement(elementId)`: drop the element from the current page,
commit, and set the selection to `null` (unconditionally). -/
def deleteElement (s : EditorState) (elementId : String) : EditorState :=
  { commitPages s (modifyPage s.pages s.currentPageIndex
      (fun p => { p with elements := p.elements.filter (fun e => e.id != elementId) })) with
    selectedElement := none }

/-- `duplicateElement(elementId)`: clone the first element with that id on
the current page, offset by (+20, +20), `zIndex` = current element count,
push, commit, select the clone; unknown id is a no-op. -/
def duplicateElement (s : EditorState) (elementId newId : String) : EditorState :=
  match s.pages[s.currentPageIndex]? with
  | none => s
  | some p =>
      match p.elements.find? (fun e => e.id = elementId) with
      | none => s
      | some el =>
          let newElement : Element :=
            { el with
              id := newId
              x := el.x + 20
              y := el.y + 20
              zIndex := (p.elements.length : ℤ) }
          { commitPages s (modifyPage s.pages s.currentPageIndex
              (fun q => { q with elements := q.elements ++ [newElement] })) with
            selectedElement := some newId }

/-! Concrete sample data for the executable checks. -/

def elemA : Element :=
  { id := "a", x := 0, y := 0, width := 100, height := 100, rotation := 0,
    locked := false, visible := true, zIndex := 0,
    variant := .shape .rectangle "#ffffff" "#000000" 2 }

def elemB : Element := { elemA with id := "b", zIndex := 1 }

def pageAB : PDFPage :=
  { id := "page-1", pageNumber := 1, width := 200, height := 200,
    elements := [elemA, elemB], backgroundImage := none }

def stateAB : EditorState :=
  { pages := [pageAB], currentPageIndex := 0, selectedElement := some "a",
    history := [[pageAB]], historyIndex := 0 }

theorem commitPages_history_length_at_tail (s : EditorState) (d : List PDFPage)
    (hat : s.historyIndex = (s.history.length : ℤ) - 1) :
    (commitPages s d).history.length = s.history.length + 1 := by
  rw [commitPages_history]
  have h : (s.historyIndex + 1).toNat = s.history.length := by omega
  rw [List.length_append, List.length_take, h]
  simp

/-- C3 counterexample: `updateElement` performs a user-visible attribute
update (the live page content changes) yet commits no new history entry,
against the claim that an update commits exactly one. -/
theorem updateElement_commits_no_history :
    (updateElement stateAB "a" (fun e => { e with x := 99 })).pages ≠ stateAB.pages ∧
    (updateElement stateAB "a" (fun e => { e with x := 99 })).history.length =
      stateAB.history.length :=
  ⟨by decide, rfl⟩

/-- C3 (amended): with the cursor at the tail, creating (text or shape),
deleting and duplicating commit exactly one new history entry each (a no-op
duplicate of an unknown id commits none), while `updateElement` never
touches the history at all. -/
theorem structural_ops_history_commits (s : EditorState) (nid eid : String)
    (x y : ℚ) (kind : ShapeKind) (f : Element → Element)
    (hat : s.historyIndex = (s.history.length : ℤ) - 1) :
    (addTextElement s nid x y).history.length = s.history.length + 1 ∧
    (addShapeElement s kind nid x y).history.length = s.history.length + 1 ∧
    (deleteElement s eid).history.length = s.history.length + 1 ∧
    ((duplicateElement s eid nid).history.length = s.history.length + 1 ∨
      duplicateElement s eid nid = s) ∧
    (updateElement s eid f).history = s.history := by
  refine ⟨?_, ?_, ?_, ?_, ?_⟩
  · exact commitPages_history_length_at_tail s _ hat
  · exact commitPages_history_length_at_tail s _ hat
  · exact commitPages_history_length_at_tail s _ hat
  · unfold duplicateElement
    split
    · exact Or.inr rfl
    · split
      · exact Or.inr rfl
      · exact Or.inl (commitPages_history_length_at_tail s _ hat)
  · unfold updateElement
    split
    · rfl
    · split <;> rfl

/-- C3 witness: the amended behaviour on a concrete state. -/
theorem structural_ops_history_commits_witness :
    (addTextElement stateAB "c" 5 5).history.length = stateAB.history.length + 1 ∧
    (updateElement stateAB "a" (fun e => { e with x := 99 })).history =
      stateAB.history := by
  have h := structural_ops_history_commits stateAB "c" "a" 5 5 .rectangle
    (fun e => { e with x := 99 }) (by decide)
  exact ⟨h.1, h.2.2.2.2⟩

/-- C5 counterexample: with element `a` selected, deleting the distinct
element `b` clears the selection instead of leaving it at `a`. -/
theorem deleteElement_nonselected_counterexample :
    stateAB.selectedElement = some "a" ∧
    pageAB.elements.any (fun e => e.id = "b") = true ∧
    (deleteElement stateAB "b").pages = [{ pageAB with elements := [elemA] }] ∧
    (deleteElement stateAB "b").selectedElement ≠ some "a" :=
  ⟨rfl, by decide, by decide, by decide⟩

/-- C5 (amended): `deleteElement` unconditionally sets the selection to
`null`: the selection is cleared whether or not the deleted element was the
selected one. -/
theorem deleteElement_clears_selection (s : EditorState) (elementId : String) :
    (deleteElement s elementId).selectedElement = none := rfl

/-! ## Selection & hit-testing -/

/-- The per-element test of the `find` callback in the `tool === 'select'`
branch of `handleCanvasClick`:
`x >= e.x && x <= e.x + e.width && y >= e.y && y <= e.y + e.height && e.visible`.
The source checks `visible` but not `locked`. -/
def hitPred (x y : ℚ) (e : Element) : Prop :=
  e.x ≤ x ∧ x ≤ e.x + e.width ∧ e.y ≤ y ∧ y ≤ e.y + e.height ∧ e.visible = true

instance (x y : ℚ) (e : Element) : Decidable (hitPred x y e) := by
  unfold hitPred; infer_instance

/-- `elements.slice().reverse().find(...)`. -/
def hitTest (elements : List Element) (x y : ℚ) : Option Element :=
  elements.reverse.find? (fun e => decide (hitPred x y e))

/-- `pages[currentPageIndex]?.elements`, defaulting to no elements. -/
def currentElements (s : EditorState) : List Element :=
  ((s.pages[s.currentPageIndex]?).map (fun p => p.elements)).getD []

/-- The select branch of `handleCanvasClick`, acting on a pointer point
already converted to document space
(`x = (clientX - rect.left) / zoom`, likewise `y`):
`setSelectedElement(clickedElement?.id || null)`. -/
def handleCanvasClickSelect (s : EditorState) (x y : ℚ) : EditorState :=
  { s with selectedElement :=
      match hitTest (currentElements s) x y with
      | some e => if e.id = "" then none else some e.id
      | none => none }

/-- A successful `find?` splits the list at the first match. -/
theorem find?_first_split {α : Type} (p : α → Bool) (l : List α) (a : α)
    (h : l.find? p = some a) :
    ∃ l₁ l₂, l = l₁ ++ a :: l₂ ∧ ∀ b ∈ l₁, p b = false := by
  induction l with
  | nil => simp at h
  | cons x xs ih =>
    by_cases hx : p x = true
    · rw [List.find?_cons_of_pos _ hx] at h
      obtain rfl : x = a := by injection h
      exact ⟨[], xs, rfl, by simp⟩
    · rw [List.find?_cons_of_neg _ hx] at h
      obtain ⟨l₁, l₂, heq, hl₁⟩ := ih h
      refine ⟨x :: l₁, l₂, by rw [heq]; rfl, ?_⟩
      intro b hb
      rcases List.mem_cons.mp hb with rfl | hb
      · exact Bool.of_not_eq_true hx
      · exact hl₁ b hb

def lockedEl : Element :=
  { id := "L", x := 0, y := 0, width := 100, height := 100, rotation := 0,
    locked := true, visible := true, zIndex := 0,
    variant := .image "data:image/png;base64,AA==" }

def elemC : Element := { elemA with id := "c", x := 500, zIndex := 2 }

def elemD : Element := { elemA with id := "d", zIndex := 3 }

def elemE : Element := { elemA with id := "e", zIndex := 2 }

/-- C4 counterexample: (i) a visible, locked element is returned by the
hit-test, against "a locked element is never the result"; (ii) with two
overlapping, visible, unlocked elements both containing the point, the
element later in the collection is hit even though the other has a
strictly higher `zIndex`. -/
theorem hitTest_counterexample :
    (hitTest [lockedEl] 50 50 = some lockedEl ∧ lockedEl.locked = true ∧
      lockedEl.visible = true) ∧
    (hitTest [elemC, elemD, elemE] 50 50 = some elemE ∧
      hitPred 50 50 elemD ∧ elemD.locked = false ∧ elemE.locked = false ∧
      elemE.zIndex < elemD.zIndex) := by
  refine ⟨⟨?_, rfl, rfl⟩, ?_, ?_, rfl, rfl, by decide⟩
  · norm_num [hitTest, hitPred, lockedEl, List.find?]
  · norm_num [hitTest, hitPred, elemA, elemC, elemD, elemE, List.find?]
  · norm_num [hitPred, elemA, elemD]

/-- C4 (amended): the hit-test scans the current page's elements in
reverse collection order — not zIndex order — and returns the first
visible element whose axis-aligned box `[x, x+width] × [y, y+height]`
contains the point, regardless of its `locked` flag; when no visible
element contains the point the selection is cleared. -/
theorem hitTest_reverse_scan (s : EditorState) (x y : ℚ) :
    (∀ e, hitTest (currentElements s) x y = some e → hitPred x y e) ∧
    ((∀ e ∈ currentElements s, ¬ hitPred x y e) →
      hitTest (currentElements s) x y = none) ∧
    (∀ e, hitTest (currentElements s) x y = some e →
      ∃ l₁ l₂, (currentElements s).reverse = l₁ ++ e :: l₂ ∧
        ∀ e' ∈ l₁, ¬ hitPred x y e') ∧
    (hitTest (currentElements s) x y = none →
      (handleCanvasClickSelect s x y).selectedElement = none) := by
  refine ⟨?_, ?_, ?_, ?_⟩
  · intro e he
    unfold hitTest at he
    have hp := List.find?_some he
    simpa using hp
  · intro hnone
    apply List.find?_eq_none.mpr
    intro e he
    simpa using hnone e (List.mem_reverse.mp he)
  · intro e he
    obtain ⟨l₁, l₂, heq, hl₁⟩ := find?_first_split _ _ _ he
    refine ⟨l₁, l₂, heq, ?_⟩
    intro e' he'
    simpa using hl₁ e' he'
  · intro hnone
    simp [handleCanvasClickSelect, hnone]

/-- C4 witness: on a concrete state whose only element does not contain
the point, the selection is cleared. -/
theorem hitTest_reverse_scan_witness :
    (handleCanvasClickSelect stateAB 150 150).selectedElement = none :=
  (hitTest_reverse_scan stateAB 150 150).2.2.2 (by
    norm_num [hitTest, hitPred, currentElements, stateAB, pageAB, elemA, elemB,
      List.find?])

/-! ## Page management -/

/-- `addPage()`: append a page sized like the last one
(`lastPage?.width || 595`, `lastPage?.height || 842` — the defaults also
apply to a zero dimension, since `0` is falsy), commit, and move to it. -/
def addPage (s : EditorState) : EditorState :=
  let newPage : PDFPage :=
    { id := "page-" ++ toString (s.pages.length + 1),
      pageNumber := s.pages.length + 1,
      width := match s.pages.getLast? with
        | some q => if q.width = 0 then 595 else q.width
        | none => 595,
      height := match s.pages.getLast? with
        | some q => if q.height = 0 then 842 else q.height
        | none => 842,
      elements := [], backgroundImage := none }
  { commitPages s (s.pages ++ [newPage]) with currentPageIndex := s.pages.length }

/-- The renumbering loop of `deletePage`:
`page.pageNumber = index + 1; page.id` becomes "page-" and the new number. -/
def renumberFrom (i : ℕ) : List PDFPage → List PDFPage
  | [] => []
  | p :: ps =>
      { p with pageNumber := i + 1, id := "page-" ++ toString (i + 1) } ::
        renumberFrom (i + 1) ps

/-- `deletePage(pageIndex)`: a guarded no-op when at most one page is left;
otherwise drop the entry at that index (`filter((_, index) => index !==
pageIndex)`), renumber, commit, and clamp `currentPageIndex` when it fell
off the end. -/
def deletePage (s : EditorState) (pageIndex : ℕ) : EditorState :=
  if s.pages.length ≤ 1 then s
  else if (renumberFrom 0 (s.pages.eraseIdx pageIndex)).length ≤ s.currentPageIndex then
    { commitPages s (renumberFrom 0 (s.pages.eraseIdx pageIndex)) with
      currentPageIndex := (renumberFrom 0 (s.pages.eraseIdx pageIndex)).length - 1 }
  else commitPages s (renumberFrom 0 (s.pages.eraseIdx pageIndex))

/-- The page-level operations the C10 invariant ranges over. -/
inductive PageOp
  | add
  | remove (pageIndex : ℕ)

def applyPageOp (s : EditorState) : PageOp → EditorState
  | .add => addPage s
  | .remove i => deletePage s i

def applyPageOps (s : EditorState) (ops : List PageOp) : EditorState :=
  ops.foldl applyPageOp s

theorem renumberFrom_length (i : ℕ) (ps : List PDFPage) :
    (renumberFrom i ps).length = ps.length := by
  induction ps generalizing i with
  | nil => rfl
  | cons p ps ih => simp [renumberFrom, ih]

theorem eraseIdx_length_bounds {α : Type} (l : List α) (i : ℕ) :
    l.length - 1 ≤ (l.eraseIdx i).length ∧ (l.eraseIdx i).length ≤ l.length := by
  induction l generalizing i with
  | nil => simp [List.eraseIdx]
  | cons x xs ih =>
    cases i with
    | zero => simp [List.eraseIdx]
    | succ j =>
      have := ih j
      simp only [List.eraseIdx, List.length_cons]
      omega

theorem addPage_pages_length (s : EditorState) :
    (addPage s).pages.length = s.pages.length + 1 := by
  simp [addPage]

theorem addPage_currentPageIndex (s : EditorState) :
    (addPage s).currentPageIndex = s.pages.length := rfl

theorem deletePage_invariant (s : EditorState) (i : ℕ)
    (h1 : 1 ≤ s.pages.length) (h2 : s.currentPageIndex < s.pages.length) :
    1 ≤ (deletePage s i).pages.length ∧
    (deletePage s i).currentPageIndex < (deletePage s i).pages.length := by
  have hb := eraseIdx_length_bounds s.pages i
  unfold deletePage
  split
  · exact ⟨h1, h2⟩
  · rename_i hgt
    split
    · rename_i hclamp
      rw [renumberFrom_length] at hclamp ⊢
      constructor
      · show 1 ≤ (renumberFrom 0 (s.pages.eraseIdx i)).length
        rw [renumberFrom_length]; omega
      · show (s.pages.eraseIdx i).length - 1 < (renumberFrom 0 (s.pages.eraseIdx i)).length
        rw [renumberFrom_length]; omega
    · rename_i hno
      rw [renumberFrom_length] at hno
      constructor
      · show 1 ≤ (renumberFrom 0 (s.pages.eraseIdx i)).length
        rw [renumberFrom_length]; omega
      · show s.currentPageIndex < (renumberFrom 0 (s.pages.eraseIdx i)).length
        rw [renumberFrom_length]; omega

theorem applyPageOps_invariant (ops : List PageOp) (s : EditorState)
    (h1 : 1 ≤ s.pages.length) (h2 : s.currentPageIndex < s.pages.length) :
    1 ≤ (applyPageOps s ops).pages.length ∧
    (applyPageOps s ops).currentPageIndex < (applyPageOps s ops).pages.length := by
  induction ops generalizing s with
  | nil => exact ⟨h1, h2⟩
  | cons op ops ih =>
    cases op with
    | add =>
        refine ih (addPage s) ?_ ?_
        · rw [addPage_pages_length]; omega
        · rw [addPage_pages_length, addPage_currentPageIndex]; omega
    | remove i =>
        obtain ⟨g1, g2⟩ := deletePage_invariant s i h1 h2
        exact ih (deletePage s i) g1 g2

/-- C10: starting from a loaded document (at least one page, a valid
current index), no sequence of `addPage`/`deletePage` operations can reach
zero pages or an out-of-range current page index; `deletePage` is a strict
no-op at exactly one page. -/
theorem document_never_empty (s : EditorState) (ops : List PageOp)
    (h1 : 1 ≤ s.pages.length) (h2 : s.currentPageIndex < s.pages.length) :
    1 ≤ (applyPageOps s ops).pages.length ∧
    (applyPageOps s ops).currentPageIndex < (applyPageOps s ops).pages.length ∧
    (s.pages.length = 1 → ∀ i, deletePage s i = s) := by
  obtain ⟨g1, g2⟩ := applyPageOps_invariant ops s h1 h2
  refine ⟨g1, g2, ?_⟩
  intro hone i
  unfold deletePage
  rw [if_pos (by omega)]

/-- C10 witness: a concrete three-operation run from a one-page document. -/
theorem document_never_empty_witness :
    1 ≤ (applyPageOps stateAB [.remove 0, .add, .remove 5]).pages.length ∧
    (applyPageOps stateAB [.remove 0, .add, .remove 5]).currentPageIndex <
      (applyPageOps stateAB [.remove 0, .add, .remove 5]).pages.length ∧
    (stateAB.pages.length = 1 → ∀ i, deletePage stateAB i = stateAB) :=
  document_never_empty stateAB [.remove 0, .add, .remove 5]
    (by decide) (by decide)

/-! ## Import pipeline -/

/-- What the renderer produces for one source page in `loadPDF`: the
viewport dimensions at the fixed oversampling scale 2 and the rasterised
background data URL (`canvas.toDataURL()`). -/
structure PageRender where
  width : ℚ
  height : ℚ
  backgroundImage : String
deriving DecidableEq

/-- The page loop of `loadPDF`: pages are processed in order 1..n; a
rejected `getPage`/`render` promise throws, aborting the whole loop, so the
first failing page fails the entire import. -/
def buildPagesFrom (pageNum : ℕ) :
    List (Except String PageRender) → Except String (List PDFPage)
  | [] => .ok []
  | .error e :: _ => .error e
  | .ok r :: rest =>
      match buildPagesFrom (pageNum + 1) rest with
      | .error e => .error e
      | .ok ps =>
          .ok ({ id := "page-" ++ toString pageNum, pageNumber := pageNum,
                 width := r.width, height := r.height, elements := [],
                 backgroundImage := some r.backgroundImage } :: ps)

/-- `loadPDF()`: the source either fails to parse (`getDocument` rejects)
or yields a render outcome per page.  On success the handler runs
`setPages(loadedPages); addToHistory(loadedPages)`; any thrown error lands
in the `catch` block, which only logs it — no state cell is written, so the
editor keeps its previous document (the empty one at editor open). -/
def loadPDF (s : EditorState)
    (src : Except String (List (Except String PageRender))) : EditorState :=
  match src with
  | .error _ => s
  | .ok rs =>
      match buildPagesFrom 1 rs with
      | .error _ => s
      | .ok loaded => commitPages s loaded

theorem buildPagesFrom_error (k : ℕ) (rs : List (Except String PageRender))
    (h : ∃ r ∈ rs, ∃ e, r = .error e) :
    ∃ e, buildPagesFrom k rs = .error e := by
  induction rs generalizing k with
  | nil => simp at h
  | cons r rest ih =>
    cases r with
    | error e => exact ⟨e, rfl⟩
    | ok pr =>
      obtain ⟨r', hr', e, he⟩ := h
      rcases List.mem_cons.mp hr' with rfl | hmem
      · cases he
      · obtain ⟨e2, he2⟩ := ih (k + 1) ⟨r', hmem, e, he⟩
        exact ⟨e2, by simp [buildPagesFrom, he2]⟩

/-- The UI cells that decide whether the editor is on screen:
`EditPage`'s `showEditor` (set `true` when the user opens the PDF editor,
cleared only by the save and close handlers) and `PDFEditor`'s `isLoading`
(the spinner renders while `true`, the full editor chrome while
`false`). -/
structure EditorView where
  showEditor : Bool
  isLoading : Bool
  state : EditorState
deriving DecidableEq

/-- `loadPDF` together with its `isLoading` effect: the success path ends
in `setIsLoading(false)` and so does the `catch` (which otherwise only
logs); neither path touches `EditPage`'s `showEditor`, so after a failed
load the editor chrome still renders — over whatever document was there
before, the empty one at editor open. -/
def loadPDFView (v : EditorView)
    (src : Except String (List (Except String PageRender))) : EditorView :=
  { v with isLoading := false, state := loadPDF v.state src }

/-- The initial values of the `useState` cells when `PDFEditor` mounts. -/
def initialEditorState : EditorState :=
  { pages := [], currentPageIndex := 0, selectedElement := none,
    history := [], historyIndex := -1 }

/-- The view right after the user picks a file for the PDF editor:
`showEditor` just set, `PDFEditor` mounted and loading. -/
def initialView : EditorView :=
  { showEditor := true, isLoading := true, state := initialEditorState }

/-- C6 counterexample: after a corrupt-source load failure the editor
still opens — `showEditor` remains `true` and the catch clears
`isLoading`, so the full editor chrome renders (over an empty document) —
against the claim's conjunct that the editor does not open. -/
theorem load_error_editor_still_opens :
    (loadPDFView initialView (.error "corrupt")).showEditor = true ∧
    (loadPDFView initialView (.error "corrupt")).isLoading = false ∧
    (loadPDFView initialView (.error "corrupt")).state.pages = [] :=
  ⟨rfl, rfl, rfl⟩

/-- C6 (amended): a source that fails to parse, or any single page that
fails to render, fails the whole import with the thrown error and installs
no partial document — the editor state is left exactly as it was — but the
editor still opens: the failure leaves `showEditor` untouched and ends
with `isLoading = false`, so the editor chrome shows an empty document
instead of not opening, and the error is only logged to the console. -/
theorem load_failure_no_partial_document (v : EditorView)
    (rs : List (Except String PageRender)) (err : String)
    (h : ∃ r ∈ rs, ∃ e, r = .error e) :
    (∃ e, buildPagesFrom 1 rs = .error e) ∧
    (loadPDFView v (.ok rs)).state = v.state ∧
    (loadPDFView v (.error err)).state = v.state ∧
    (loadPDFView v (.ok rs)).showEditor = v.showEditor ∧
    (loadPDFView v (.error err)).showEditor = v.showEditor ∧
    (loadPDFView v (.ok rs)).isLoading = false ∧
    (loadPDFView v (.error err)).isLoading = false := by
  obtain ⟨e, he⟩ := buildPagesFrom_error 1 rs h
  exact ⟨⟨e, he⟩, by simp [loadPDFView, loadPDF, he], rfl, rfl, rfl, rfl, rfl⟩

/-- C6 witness: the freshly opened editor fed a two-page source whose
second page fails to render. -/
theorem load_failure_no_partial_document_witness :
    (∃ e, buildPagesFrom 1
        [.ok ⟨200, 200, "bg"⟩, .error "render failed"] = .error e) ∧
    (loadPDFView initialView
        (.ok [.ok ⟨200, 200, "bg"⟩, .error "render failed"])).state =
      initialView.state ∧
    (loadPDFView initialView
        (.ok [.ok ⟨200, 200, "bg"⟩, .error "render failed"])).showEditor =
      initialView.showEditor := by
  have h := load_failure_no_partial_document initialView
    [.ok ⟨200, 200, "bg"⟩, .error "render failed"] "corrupt"
    ⟨.error "render failed", by simp, "render failed", rfl⟩
  exact ⟨h.1, h.2.1, h.2.2.2.1⟩

/-! ## Flatten/export pipeline -/

/-- The paint commands `savePDF` issues through `pdf-lib`: `drawImage`
(rotation absent for the page background, present for image elements),
`drawText` (always with the embedded Helvetica standard font, whatever
`fontFamily` says), `drawRectangle`.  `savePDF` has no branch for circle or
line elements, so no command exists for them. -/
inductive PaintCmd
  | drawImage (x y width height : ℚ) (rotation : Option ℚ)
  | drawText (content : String) (x y size : ℚ) (font color : String) (rotation : ℚ)
  | drawRectangle (x y width height : ℚ) (fill : Option String)
      (borderColor : String) (borderWidth : ℚ) (rotation : ℚ)
deriving DecidableEq

/-- The per-element body of the paint loop of `savePDF`: invisible elements
are skipped (`continue`); a text, image or rectangle element produces one
command, with the top-left-origin y converted to the bottom-left-origin
output axis as `pageData.height - element.y - element.height`; an image
whose bytes fail to fetch/embed is skipped with a warning (`embedOk`
abstracts that success); a circle or line element matches no branch and
produces nothing.  Colors stay as their hex strings (the `rgb(parseInt...)`
conversion is an injective renaming the claims do not depend on). -/
def elementPaint (embedOk : String → Bool) (pageHeight : ℚ) (e : Element) :
    List PaintCmd :=
  if e.visible = false then [] else
  match e.variant with
  | .text content fontSize _ color _ _ _ _ _ =>
      [.drawText content e.x (pageHeight - e.y - e.height) fontSize "Helvetica"
        color e.rotation]
  | .image src =>
      if embedOk src then
        [.drawImage e.x (pageHeight - e.y - e.height) e.width e.height
          (some e.rotation)]
      else []
  | .shape .rectangle fillColor strokeColor strokeWidth =>
      [.drawRectangle e.x (pageHeight - e.y - e.height) e.width e.height
        (if fillColor = "transparent" then none else some fillColor)
        strokeColor strokeWidth e.rotation]
  | .shape .circle _ _ _ => []
  | .shape .line _ _ _ => []

/-- `[...pageData.elements].sort((a, b) => a.zIndex - b.zIndex)`:
`Array.prototype.sort` is stable, so a stable insertion sort has the same
semantics. -/
def sortByZIndex (es : List Element) : List Element :=
  List.insertionSort (fun a b => a.zIndex ≤ b.zIndex) es

/-- One page of `savePDF`: `addPage([width, height])`; the background
raster (when present and embeddable) is drawn first filling the page, then
the elements in ascending `zIndex` order. -/
def pagePaint (embedOk : String → Bool) (p : PDFPage) : List PaintCmd :=
  (match p.backgroundImage with
   | some bg => if embedOk bg then [.drawImage 0 0 p.width p.height none] else []
   | none => []) ++
  (sortByZIndex p.elements).flatMap (elementPaint embedOk p.height)

/-- `savePDF()`: one output page per document page, in document order, at
the page's declared dimensions. -/
def savePDF (embedOk : String → Bool) (pages : List PDFPage) :
    List (ℚ × ℚ × List PaintCmd) :=
  pages.map (fun p => (p.width, p.height, pagePaint embedOk p))

instance : IsTotal Element (fun a b => a.zIndex ≤ b.zIndex) :=
  ⟨fun a b => Int.le_total a.zIndex b.zIndex⟩

instance : IsTrans Element (fun a b => a.zIndex ≤ b.zIndex) :=
  ⟨fun _ _ _ h1 h2 => le_trans h1 h2⟩

/-- Any command an element paints appears in its page's output. -/
theorem mem_pagePaint (embedOk : String → Bool) (p : PDFPage) (e : Element)
    (he : e ∈ p.elements) (c : PaintCmd)
    (hc : c ∈ elementPaint embedOk p.height e) :
    c ∈ pagePaint embedOk p := by
  have hmem : e ∈ sortByZIndex p.elements :=
    ((List.perm_insertionSort _ p.elements).mem_iff).mpr he
  exact List.mem_append_right _ (List.mem_flatMap.mpr ⟨e, hmem, hc⟩)

def circleEl : Element :=
  { id := "circ", x := 10, y := 10, width := 50, height := 50, rotation := 0,
    locked := false, visible := true, zIndex := 0,
    variant := .shape .circle "#ff0000" "#000000" 2 }

def circlePage : PDFPage :=
  { id := "page-1", pageNumber := 1, width := 200, height := 200,
    elements := [circleEl], backgroundImage := none }

/-- C7 counterexample: a visible circle element produces no paint command
at all — `savePDF` has no branch for circle (or line), so the export drops
it and the claim that every visible element of every variant is painted
fails. -/
theorem circle_element_not_painted :
    circleEl.visible = true ∧
    circleEl ∈ circlePage.elements ∧
    pagePaint (fun _ => true) circlePage = [] :=
  ⟨rfl, by simp [circlePage], rfl⟩

/-- C7 (amended): export emits one output page per document page, in page
order, at the declared width/height; each page paints its (embeddable)
background first, then its elements in ascending `zIndex` order; invisible
elements are skipped; each visible text or rectangle element paints exactly
one command and an image element paints one exactly when its bytes embed —
but circle and line elements never produce any paint command. -/
theorem savePDF_paint_spec (embedOk : String → Bool) (pages : List PDFPage) :
    ((savePDF embedOk pages).map (fun t => (t.1, t.2.1)) =
      pages.map (fun p => (p.width, p.height))) ∧
    (∀ p ∈ pages, ∀ bg, p.backgroundImage = some bg → embedOk bg = true →
      ∃ rest, pagePaint embedOk p =
        PaintCmd.drawImage 0 0 p.width p.height none :: rest) ∧
    (∀ p ∈ pages,
      (sortByZIndex p.elements).Sorted (fun a b => a.zIndex ≤ b.zIndex) ∧
      (sortByZIndex p.elements).Perm p.elements ∧
      pagePaint embedOk p = (match p.backgroundImage with
        | some bg =>
            if embedOk bg then [PaintCmd.drawImage 0 0 p.width p.height none]
            else []
        | none => []) ++
        (sortByZIndex p.elements).flatMap (elementPaint embedOk p.height)) ∧
    (∀ (h : ℚ) (e : Element), e.visible = false →
      elementPaint embedOk h e = []) ∧
    (∀ (h : ℚ) (e : Element) (content : String) (fontSize : ℚ)
      (fontFamily color : String) (b i u st : Bool) (al : Alignment),
      e.visible = true →
      e.variant = .text content fontSize fontFamily color b i u st al →
      elementPaint embedOk h e =
        [.drawText content e.x (h - e.y - e.height) fontSize "Helvetica"
          color e.rotation]) ∧
    (∀ (h : ℚ) (e : Element) (src : String),
      e.visible = true → e.variant = .image src →
      elementPaint embedOk h e =
        if embedOk src then
          [.drawImage e.x (h - e.y - e.height) e.width e.height
            (some e.rotation)]
        else []) ∧
    (∀ (h : ℚ) (e : Element) (fillColor strokeColor : String) (sw : ℚ),
      e.visible = true →
      e.variant = .shape .rectangle fillColor strokeColor sw →
      elementPaint embedOk h e =
        [.drawRectangle e.x (h - e.y - e.height) e.width e.height
          (if fillColor = "transparent" then none else some fillColor)
          strokeColor sw e.rotation]) ∧
    (∀ (h : ℚ) (e : Element) (kind : ShapeKind)
      (fillColor strokeColor : String) (sw : ℚ),
      kind = .circle ∨ kind = .line →
      e.variant = .shape kind fillColor strokeColor sw →
      elementPaint embedOk h e = []) := by
  refine ⟨?_, ?_, ?_, ?_, ?_, ?_, ?_, ?_⟩
  · simp [savePDF]
  · intro p _ bg hbg hok
    refine ⟨(sortByZIndex p.elements).flatMap (elementPaint embedOk p.height), ?_⟩
    simp [pagePaint, hbg, hok]
  · intro p _
    exact ⟨List.sorted_insertionSort _ p.elements,
      List.perm_insertionSort _ p.elements, rfl⟩
  · intro h e hv
    simp [elementPaint, hv]
  · intro h e content fontSize fontFamily color b i u st al hv hvar
    simp [elementPaint, hv, hvar]
  · intro h e src hv hvar
    simp [elementPaint, hv, hvar]
  · intro h e fillColor strokeColor sw hv hvar
    simp [elementPaint, hv, hvar]
  · intro h e kind fillColor strokeColor sw hk hvar
    rcases hk with rfl | rfl <;> simp [elementPaint, hvar]

def watermarkEl : Element :=
  { id := "wm", x := 50, y := 50, width := 100, height := 20, rotation := 0,
    locked := false, visible := true, zIndex := 0,
    variant := .text "WATERMARK" 16 "Arial" "#000000" false false false false .left }

def watermarkPage : PDFPage :=
  { id := "page-1", pageNumber := 1, width := 200, height := 200,
    elements := [watermarkEl], backgroundImage := none }

/-- C8: every visible text element is painted with its content at
`outputY = pageHeight - elementY - elementHeight`, the conversion from the
document's top-left-origin vertical axis to the output's bottom-left
origin. -/
theorem text_output_y (embedOk : String → Bool) (p : PDFPage) (e : Element)
    (hmem : e ∈ p.elements) (hv : e.visible = true)
    (content : String) (fontSize : ℚ) (fontFamily color : String)
    (b i u st : Bool) (al : Alignment)
    (hvar : e.variant = .text content fontSize fontFamily color b i u st al) :
    PaintCmd.drawText content e.x (p.height - e.y - e.height) fontSize
      "Helvetica" color e.rotation ∈ pagePaint embedOk p := by
  apply mem_pagePaint embedOk p e hmem
  simp [elementPaint, hv, hvar]

/-- C8 witness: the round-trip scenario — a 200×200 page with a
`"WATERMARK"` text element at (50,50) of size 100×20 exports a text paint
command at output y = 200 - 50 - 20 = 130. -/
theorem text_output_y_witness :
    PaintCmd.drawText "WATERMARK" 50 130 16 "Helvetica" "#000000" 0 ∈
      pagePaint (fun _ => true) watermarkPage := by
  have h := text_output_y (fun _ => true) watermarkPage watermarkEl
    (by simp [watermarkPage]) rfl "WATERMARK" 16 "Arial" "#000000"
    false false false false .left rfl
  have hy : (200 : ℚ) - 50 - 20 = 130 := by norm_num
  simpa [watermarkEl, watermarkPage, hy] using h

/-! ## pdfProcessor: protect-with-password -/

set_option linter.unusedVariables false in
/-- `PDFProcessor.protectPdf(file, password)` over an abstract `pdf-lib`
boundary: `PDFDocument.load` may reject, `pdfDoc.save()` serialises.  The
source never consumes `password` — its own comment notes that pdf-lib has
no password support and that the original PDF is returned — so the
embedding takes `load` and `save` as parameters and only composes them;
a load failure is caught and rethrown as the fixed error message. -/
def protectPdf {Doc : Type} (load : List ℕ → Except String Doc)
    (save : Doc → List ℕ) (file : List ℕ) (password : String) :
    Except String (List ℕ) :=
  match load file with
  | .ok pdfDoc => .ok (save pdfDoc)
  | .error _ => .error "Failed to protect PDF file"

/-- C9: protect-with-password has no cryptographic effect: for any load and
save collaborators, any input file and any two passwords, the outputs are
identical (the password is never consulted), and a document that loads is
simply re-saved through the ordinary save path with no encryption
applied. -/
theorem protectPdf_ignores_password {Doc : Type}
    (load : List ℕ → Except String Doc) (save : Doc → List ℕ)
    (file : List ℕ) (p₁ p₂ : String) :
    protectPdf load save file p₁ = protectPdf load save file p₂ ∧
    (∀ pdfDoc, load file = .ok pdfDoc →
      protectPdf load save file p₁ = .ok (save pdfDoc)) := by
  refine ⟨rfl, ?_⟩
  intro pdfDoc hld
  simp [protectPdf, hld]

/-- C9 witness: a concrete collaborator pair and two concrete passwords. -/
theorem protectPdf_ignores_password_witness :
    protectPdf (fun _ => Except.ok ()) (fun _ => [37, 80, 68, 70]) [1, 2]
        "hunter2" =
      protectPdf (fun _ => Except.ok ()) (fun _ => [37, 80, 68, 70]) [1, 2]
        "s3cret" ∧
    protectPdf (fun _ => Except.ok ()) (fun _ => [37, 80, 68, 70]) [1, 2]
        "hunter2" = .ok [37, 80, 68, 70] := by
  have h := protectPdf_ignores_password
    (fun _ => (Except.ok () : Except String Unit))
    (fun _ => [37, 80, 68, 70]) [1, 2] "hunter2" "s3cret"
  exact ⟨h.1, h.2 () rfl⟩

end PDFThing
